import Mathlib

/-!
# Verification of the PRF-192 Product Management System core

This development gives a shallow embedding of the hierarchical collection
engine of the repository (DataStore → Category → Subgroup → Product) and its
binary persistence codec, and settles the stated properties against it.

Two variants of the codebase are embedded:

* namespace `PMS` — the complete system
  (`lab1/ProductManagementSystem/src/{product,subgroup,category,utils}.c`,
  with `product.c`/`utils.c` also present as `unnamed/part_005`/`part_006`):
  snake_case functions `product_create`, `subgroup_add_product`,
  `datastore_save`, `datastore_load`, ….
* namespace `V2` — the stricter module variant
  (`lab1/src/product-management-system/src/{product,subgroup}.c`,
  `product.c` also present as `unnamed/part_001`): CamelCase functions
  `Product_create`, `Subgroup_addProduct`, ….

Modelling conventions (each noted again at the definition it concerns):

* C `int` fields become `Int`; `float`/`double` become `ℚ` (exact ordered
  field — sign and order comparisons, which are all the code performs, are
  preserved; bit-level float rounding is not modelled).
* C bounded `char[n]` string fields become `List Char`; `strncpy` into a
  field of size `n` with forced NUL termination becomes `List.take (n-1)`.
* Dynamic arrays (`ptr` + `count` + `capacity`) become `List`s holding the
  `count` live elements.  Capacities and `malloc`/`realloc` growth are memory
  bookkeeping with no effect on the live contents and are not modelled;
  growth is assumed to succeed.  The `DataStore.category_count` C field is
  kept separate from the list because `datastore_load` writes it directly
  from the file header, independently of the array contents.
* The wall clock (`get_current_timestamp`) is passed in as an explicit
  `now : List Char` argument where the C code samples it.
* The binary file is modelled as a `List FVal` of the fixed-width fields the
  codec reads and writes (`int32` / `char[50]` / `char[200]` / whole
  `Product` record), in file order; a short read is an exhausted list.
-/

namespace PMS

/-- Whitespace set used by `trim_string` in `utils.c` / `product.c` /
`subgroup.c` / `category.c` of the `ProductManagementSystem` variant:
space, tab, newline, carriage return (spelled out in the C source). -/
def is_trim_ws (c : Char) : Bool :=
  c == ' ' || c == '\t' || c == '\n' || c == '\r'

/-- Model of `trim_string` (utils.c:33-53 and the identical static copies): drop
leading whitespace, then trailing whitespace.  An all-whitespace string
trims to the empty string. -/
def trim_string (s : List Char) : List Char :=
  ((s.dropWhile is_trim_ws).reverse.dropWhile is_trim_ws).reverse

/-- Model of `tolower` in the C locale: only ASCII capitals are mapped down. -/
def c_tolower (c : Char) : Char :=
  if 'A' ≤ c && c ≤ 'Z' then Char.ofNat (c.toNat + 32) else c

/-- Does `hs` start with `ns`?  (Helper for the `strstr` model.) -/
def starts_with : List Char → List Char → Bool
  | _, [] => true
  | [], _ :: _ => false
  | c :: cs, d :: ds => c == d && starts_with cs ds

/-- Model of `strstr(hs, ns) != NULL`: `ns` occurs as a contiguous substring of
`hs`.  `strstr(hs, "")` is a hit at the start, for every `hs`. -/
def strstr_hit (hs ns : List Char) : Bool :=
  match hs with
  | [] => starts_with [] ns
  | c :: t => starts_with (c :: t) ns || strstr_hit t ns

/-- Swap-and-pop removal at index `i`: overwrite slot `i` with the last
live slot, then drop the last slot (`subgroup_remove_product`,
`category_remove_subgroup`, `datastore_remove_category` all use this).
When `i` is already the last index the C code skips the copy; writing the
last element onto itself and dropping it gives the same list. -/
def swap_pop (l : List α) (i : Nat) : List α :=
  match l.getLast? with
  | none => []
  | some z => (l.set i z).dropLast

/-- First index satisfying `p`, mirroring the C `for`-loop searches
(`int index = -1; for (i...) if (match) { index = i; break; }`). -/
def find_index (p : α → Bool) : List α → Option Nat
  | [] => none
  | a :: l => if p a then some 0 else (find_index p l).map (· + 1)

/-- Model of `Product` (include/category.h, embedded product.h section, lines
127-137).  `code`, `name`, `description`, `created_at`, `updated_at` are
`char[20]`, `char[100]`, `char[200]`, `char[20]`, `char[20]`. -/
structure Product where
  id : Int
  subgroup_id : Int
  code : List Char
  name : List Char
  description : List Char
  price : ℚ
  quantity : Int
  created_at : List Char
  updated_at : List Char
deriving DecidableEq, Repr

/-- Model of `product_create` (product.c:52-81): fields are copied with
`strncpy(dst, src, sizeof dst - 1)` then trimmed; both timestamps are set
to the current time (`now`).  No validation is performed here. -/
def product_create (id subgroup_id : Int) (code name description : List Char)
    (price : ℚ) (quantity : Int) (now : List Char) : Product :=
  { id := id
    subgroup_id := subgroup_id
    code := trim_string (code.take 19)
    name := trim_string (name.take 99)
    description := trim_string (description.take 199)
    price := price
    quantity := quantity
    created_at := now.take 19
    updated_at := now.take 19 }

/-- Model of `product_update_timestamp` (product.c:236-240). -/
def product_update_timestamp (p : Product) (now : List Char) : Product :=
  { p with updated_at := now.take 19 }

/-- Model of `product_update_name` (product.c:162-184).  Note the source order: the
new name is copied into the product and trimmed *before* the
post-trim emptiness check, so a whitespace-only rejection leaves the name
field already overwritten with the empty string. -/
def product_update_name (p : Product) (name : List Char) (now : List Char) :
    Bool × Product :=
  if name.length = 0 then
    (false, p)
  else
    let p1 := { p with name := trim_string (name.take 99) }
    if p1.name.length = 0 then
      (false, p1)
    else
      (true, product_update_timestamp p1 now)

/-- Model of `product_update_code` (product.c:138-160): same shape as
`product_update_name`, with the `char[20]` bound. -/
def product_update_code (p : Product) (code : List Char) (now : List Char) :
    Bool × Product :=
  if code.length = 0 then
    (false, p)
  else
    let p1 := { p with code := trim_string (code.take 19) }
    if p1.code.length = 0 then
      (false, p1)
    else
      (true, product_update_timestamp p1 now)

/-- Model of `product_update_description` (product.c:186-202): a NULL/empty
description is accepted (becomes empty after trim). -/
def product_update_description (p : Product) (description : List Char)
    (now : List Char) : Bool × Product :=
  product_update_timestamp { p with description := trim_string (description.take 199) } now
    |> fun q => (true, q)

/-- Model of `product_update_price` (product.c:204-218): negative rejected with the
product untouched, otherwise assign and refresh `updated_at`. -/
def product_update_price (p : Product) (price : ℚ) (now : List Char) :
    Bool × Product :=
  if price < 0 then (false, p)
  else (true, product_update_timestamp { p with price := price } now)

/-- Model of `product_update_quantity` (product.c:220-234). -/
def product_update_quantity (p : Product) (quantity : Int) (now : List Char) :
    Bool × Product :=
  if quantity < 0 then (false, p)
  else (true, product_update_timestamp { p with quantity := quantity } now)

/-- Model of `product_is_valid` (product.c:242-272).  (The C NULL-pointer guard has
no counterpart for a value argument.) -/
def product_is_valid (p : Product) : Bool :=
  decide (0 < p.id) && decide (0 < p.subgroup_id) &&
  !(p.code.length = 0 : Bool) && !(p.name.length = 0 : Bool) &&
  decide (0 ≤ p.price) && decide (0 ≤ p.quantity)

/-- Model of `Subgroup` (include/subgroup.h:21-29, also `unnamed/part_004`):
`name` is `char[50]`, `description` is `char[200]`; the dynamic array
`products`/`product_count`/`product_capacity` is the list of live
products (capacity is allocation bookkeeping, see the file header). -/
structure Subgroup where
  id : Int
  category_id : Int
  name : List Char
  description : List Char
  products : List Product
deriving DecidableEq, Repr

/-- Model of `subgroup_create` (subgroup.c:34-60): starts with an empty product
array; name/description copied with `strncpy` and trimmed. -/
def subgroup_create (id category_id : Int) (name description : List Char) :
    Subgroup :=
  { id := id
    category_id := category_id
    name := trim_string (name.take 49)
    description := trim_string (description.take 199)
    products := [] }

/-- Model of `subgroup_is_valid` (subgroup.c:240-266).  The count/capacity checks
(`count ≥ 0`, `capacity ≥ 0`, `count ≤ capacity`) hold by construction in
the list model and contribute no condition here. -/
def subgroup_is_valid (sg : Subgroup) : Bool :=
  decide (0 < sg.id) && decide (0 < sg.category_id) &&
  !(sg.name.length = 0 : Bool)

/-- Model of `subgroup_add_product` (subgroup.c:62-92): the product is checked with
`product_is_valid` and then appended at index `product_count`.  There is
no duplicate-id check in this variant.  Array growth (capacity doubling)
is assumed to succeed. -/
def subgroup_add_product (sg : Subgroup) (p : Product) : Bool × Subgroup :=
  if product_is_valid p then
    (true, { sg with products := sg.products ++ [p] })
  else
    (false, sg)

/-- Model of `subgroup_remove_product` (subgroup.c:106-142): reject when the array
is empty, linear-scan for the id, swap-and-pop on a hit. -/
def subgroup_remove_product (sg : Subgroup) (product_id : Int) :
    Bool × Subgroup :=
  if sg.products.length = 0 then
    (false, sg)
  else
    match find_index (fun p => p.id == product_id) sg.products with
    | none => (false, sg)
    | some i => (true, { sg with products := swap_pop sg.products i })

/-- Model of `subgroup_find_product_by_id` (subgroup.c:144-156): first match. -/
def subgroup_find_product_by_id (sg : Subgroup) (product_id : Int) :
    Option Product :=
  sg.products.find? (fun p => p.id == product_id)

/-- Model of `subgroup_free` (subgroup.c:268-280): releases the product array. -/
def subgroup_free (sg : Subgroup) : Subgroup :=
  { sg with products := [] }

/-- Model of `Category` (include/category.h:18-25): `name` is `char[50]`,
`description` is `char[200]`; owns the dynamic array of subgroups. -/
structure Category where
  id : Int
  name : List Char
  description : List Char
  subgroups : List Subgroup
deriving DecidableEq, Repr

/-- Model of `category_create` (category.c:33-58). -/
def category_create (id : Int) (name description : List Char) : Category :=
  { id := id
    name := trim_string (name.take 49)
    description := trim_string (description.take 199)
    subgroups := [] }

/-- Model of `category_is_valid` (category.c:254-276); count/capacity checks hold
by construction, as for `subgroup_is_valid`. -/
def category_is_valid (c : Category) : Bool :=
  decide (0 < c.id) && !(c.name.length = 0 : Bool)

/-- Model of `category_add_subgroup` (category.c:60-90). -/
def category_add_subgroup (c : Category) (sg : Subgroup) : Bool × Category :=
  if subgroup_is_valid sg then
    (true, { c with subgroups := c.subgroups ++ [sg] })
  else
    (false, c)

/-- Model of `category_remove_subgroup` (category.c:104-144): free the found
subgroup's products, then swap-and-pop it out of the array. -/
def category_remove_subgroup (c : Category) (subgroup_id : Int) :
    Bool × Category :=
  if c.subgroups.length = 0 then
    (false, c)
  else
    match find_index (fun sg => sg.id == subgroup_id) c.subgroups with
    | none => (false, c)
    | some i => (true, { c with subgroups := swap_pop c.subgroups i })

/-- Model of `category_find_subgroup_by_id` (category.c:146-158). -/
def category_find_subgroup_by_id (c : Category) (subgroup_id : Int) :
    Option Subgroup :=
  c.subgroups.find? (fun sg => sg.id == subgroup_id)

/-- Model of `category_free` (category.c:278-294): frees every owned subgroup
(which frees its products) and then the subgroup array itself. -/
def category_free (c : Category) : Category :=
  { c with subgroups := [] }

/-- Model of `DataStore` (include/utils.h:40-51).  `category_count` is kept as an
explicit `Int` field alongside the list because `datastore_load` assigns
it straight from the file header; for every store built by the public
operations it equals `categories.length`.  The `last_saved` wall-clock
string is not modelled (no stated property concerns it). -/
structure DataStore where
  categories : List Category
  category_count : Int
  next_category_id : Int
  next_subgroup_id : Int
  next_product_id : Int
  is_modified : Bool
deriving DecidableEq, Repr

/-- Model of `datastore_init` (utils.c:172-191). -/
def datastore_init : DataStore :=
  { categories := []
    category_count := 0
    next_category_id := 1
    next_subgroup_id := 1
    next_product_id := 1
    is_modified := false }

/-- Model of `datastore_free` (utils.c:193-207): cascading free of every category,
then the array; the id counters and the dirty flag are left untouched. -/
def datastore_free (s : DataStore) : DataStore :=
  { s with categories := [], category_count := 0 }

/-- Model of `datastore_add_category` (utils.c:209-240): validate, append at index
`category_count`, bump the count, set the dirty flag.  The id counters
are NOT touched here. -/
def datastore_add_category (s : DataStore) (c : Category) : Bool × DataStore :=
  if category_is_valid c then
    (true, { s with categories := s.categories ++ [c]
                    category_count := s.category_count + 1
                    is_modified := true })
  else
    (false, s)

/-- Model of `datastore_remove_category` (utils.c:242-275): linear scan for the id,
cascading `category_free` of the hit, swap-and-pop, decrement the count,
set the dirty flag. -/
def datastore_remove_category (s : DataStore) (category_id : Int) :
    Bool × DataStore :=
  match find_index (fun c => c.id == category_id) s.categories with
  | none => (false, s)
  | some i =>
    (true, { s with categories := swap_pop s.categories i
                    category_count := s.category_count - 1
                    is_modified := true })

/-- Model of `datastore_find_category_by_id` (utils.c:277-287). -/
def datastore_find_category_by_id (s : DataStore) (category_id : Int) :
    Option Category :=
  s.categories.find? (fun c => c.id == category_id)

/-- Model of `datastore_find_subgroup_by_id` (utils.c:289-300): first category that
yields a hit. -/
def datastore_find_subgroup_by_id (s : DataStore) (subgroup_id : Int) :
    Option Subgroup :=
  s.categories.findSome? (fun c => category_find_subgroup_by_id c subgroup_id)

/-- Model of `datastore_find_product_by_id` (utils.c:302-315): categories ×
subgroups, first hit. -/
def datastore_find_product_by_id (s : DataStore) (product_id : Int) :
    Option Product :=
  s.categories.findSome? fun c =>
    c.subgroups.findSome? fun sg => subgroup_find_product_by_id sg product_id

/-- Model of `add_category` (main.c:206-263), the UI wrapper: reject an empty name,
build the category with the store's `next_category_id`, delegate to
`datastore_add_category`, and increment `next_category_id` only on
success.  (`safe_input_string` has already trimmed the raw input.) -/
def add_category (s : DataStore) (name description : List Char) : DataStore :=
  if name.length = 0 then s
  else
    let c := category_create s.next_category_id name description
    let r := datastore_add_category s c
    if r.1 then { r.2 with next_category_id := r.2.next_category_id + 1 }
    else r.2

/-- Model of `SearchResult` (include/utils.h:62-65): a detached array of product
copies plus its length. -/
structure SearchResult where
  products : List Product
  count : Int
deriving DecidableEq, Repr

/-- All products of the store in traversal order (categories, then
subgroups, then products) — the iteration every search and statistics
function performs. -/
def all_products (s : DataStore) : List Product :=
  (s.categories.map fun c => (c.subgroups.map Subgroup.products).flatten).flatten

/-- Model of `datastore_search_products_by_name` (utils.c:321-383): both the query
and each product name are truncated to 99 chars (`strncpy` into a
`char[100]` buffer) and lowercased, then matched with `strstr`.  The
match-count bookkeeping (overallocate, fill, shrink) leaves exactly the
matches, in traversal order. -/
def datastore_search_products_by_name (s : DataStore) (name : List Char) :
    SearchResult :=
  let needle := (name.take 99).map c_tolower
  let hits := (all_products s).filter fun p =>
    strstr_hit ((p.name.take 99).map c_tolower) needle
  { products := hits, count := (hits.length : Int) }

/-- Model of `datastore_search_products_by_price` (utils.c:385-429): keeps products
with `min_price ≤ price ≤ max_price` (both inclusive). -/
def datastore_search_products_by_price (s : DataStore)
    (min_price max_price : ℚ) : SearchResult :=
  let hits := (all_products s).filter fun p =>
    decide (min_price ≤ p.price) && decide (p.price ≤ max_price)
  { products := hits, count := (hits.length : Int) }

/-- Model of `datastore_search_products_by_quantity` (utils.c:431-475). -/
def datastore_search_products_by_quantity (s : DataStore)
    (min_qty max_qty : Int) : SearchResult :=
  let hits := (all_products s).filter fun p =>
    decide (min_qty ≤ p.quantity) && decide (p.quantity ≤ max_qty)
  { products := hits, count := (hits.length : Int) }

/-- One fixed-width field of the binary file, in the codec's own units:
an `int32`, a fixed-width character field (`char[50]`/`char[200]`), or a
whole `Product` record (`fwrite(prod, sizeof(Product), 1, file)`). -/
inductive FVal where
  | ival : Int → FVal
  | sval : List Char → FVal
  | pval : Product → FVal
deriving DecidableEq, Repr

/-- Fields written for one subgroup by `datastore_save` (utils.c:598-622):
id, category_id, name, description, product_count, then the product
records. -/
def ser_subgroup (sg : Subgroup) : List FVal :=
  FVal.ival sg.id :: FVal.ival sg.category_id :: FVal.sval sg.name ::
  FVal.sval sg.description :: FVal.ival (sg.products.length : Int) ::
  sg.products.map FVal.pval

/-- Fields written for one category by `datastore_save` (utils.c:584-596):
id, name, description, subgroup_count, then the subgroups. -/
def ser_category (c : Category) : List FVal :=
  FVal.ival c.id :: FVal.sval c.name :: FVal.sval c.description ::
  FVal.ival (c.subgroups.length : Int) :: (c.subgroups.map ser_subgroup).flatten

/-- Model of `datastore_save` (utils.c:555-642): header (`category_count` and the
three id counters), then `category_count` many categories depth-first;
on full success `is_modified` is cleared.  Returns the written stream and
the updated store.  The temp-file/backup/rename rotation and the write
failure paths (which abort before the flag update) are file-system
effects outside the model; the model is the successful write. -/
def datastore_save (s : DataStore) : List FVal × DataStore :=
  (FVal.ival s.category_count :: FVal.ival s.next_category_id ::
     FVal.ival s.next_subgroup_id :: FVal.ival s.next_product_id ::
     ((s.categories.take s.category_count.toNat).map ser_category).flatten,
   { s with is_modified := false })

/-- Model of `fread` of one `int32`; fails on stream end or a field of another
width (the codec only ever reads back streams it wrote in phase). -/
def read_int : List FVal → Option (Int × List FVal)
  | FVal.ival n :: rest => some (n, rest)
  | _ => none

/-- Model of `fread` of one fixed-width character field. -/
def read_str : List FVal → Option (List Char × List FVal)
  | FVal.sval cs :: rest => some (cs, rest)
  | _ => none

/-- Model of `fread` of one whole `Product` record. -/
def read_prod : List FVal → Option (Product × List FVal)
  | FVal.pval p :: rest => some (p, rest)
  | _ => none

/-- The `for (k = 0; k < product_count; k++)` read loop
(utils.c:756-764). -/
def read_products : Nat → List FVal → Option (List Product × List FVal)
  | 0, st => some ([], st)
  | n + 1, st => do
    let (p, st1) ← read_prod st
    let (ps, st2) ← read_products n st1
    pure (p :: ps, st2)

/-- One subgroup of the load loop (utils.c:723-765): five header fields,
the `product_count < 0 || product_count > 10000` validation, then the
products. -/
def read_subgroup (st : List FVal) : Option (Subgroup × List FVal) := do
  let (sid, st1) ← read_int st
  let (cid, st2) ← read_int st1
  let (nm, st3) ← read_str st2
  let (ds, st4) ← read_str st3
  let (pcount, st5) ← read_int st4
  if pcount < 0 ∨ 10000 < pcount then none
  else do
    let (ps, st6) ← read_products pcount.toNat st5
    pure ({ id := sid, category_id := cid, name := nm, description := ds,
            products := ps }, st6)

/-- The `for (j = 0; j < subgroup_count; j++)` read loop. -/
def read_subgroups : Nat → List FVal → Option (List Subgroup × List FVal)
  | 0, st => some ([], st)
  | n + 1, st => do
    let (sg, st1) ← read_subgroup st
    let (sgs, st2) ← read_subgroups n st1
    pure (sg :: sgs, st2)

/-- One category of the load loop (utils.c:691-721): four header fields,
the `subgroup_count < 0 || subgroup_count > 1000` validation, then the
subgroups. -/
def read_category (st : List FVal) : Option (Category × List FVal) := do
  let (cid, st1) ← read_int st
  let (nm, st2) ← read_str st1
  let (ds, st3) ← read_str st2
  let (scount, st4) ← read_int st3
  if scount < 0 ∨ 1000 < scount then none
  else do
    let (sgs, st5) ← read_subgroups scount.toNat st4
    pure ({ id := cid, name := nm, description := ds, subgroups := sgs }, st5)

/-- The `for (i = 0; i < category_count; i++)` read loop. -/
def read_categories : Nat → List FVal → Option (List Category × List FVal)
  | 0, st => some ([], st)
  | n + 1, st => do
    let (c, st1) ← read_category st
    let (cs, st2) ← read_categories n st1
    pure (c :: cs, st2)

/-- Model of `datastore_load` on an opened file (utils.c:656-779).  The previous
contents are freed and the store reset to `datastore_init`; the four
header ints are then read one by one straight into the store's fields, so
a short header leaves the fields read so far holding file values.  Header
validation (`category_count` in `[0,10000]`, counters positive) failure
returns with those fields still in place.  A failure anywhere in the body
runs `datastore_free`, which clears the categories and zeroes the count
but leaves the counters as read.  On success `is_modified` ends false.
(The input store is freed and fully overwritten, hence unused.) -/
def datastore_load_stream (_s : DataStore) (st : List FVal) :
    Bool × DataStore :=
  let s0 := datastore_init
  match read_int st with
  | none => (false, s0)
  | some (v1, st1) =>
    let s1 := { s0 with category_count := v1 }
    match read_int st1 with
    | none => (false, s1)
    | some (v2, st2) =>
      let s2 := { s1 with next_category_id := v2 }
      match read_int st2 with
      | none => (false, s2)
      | some (v3, st3) =>
        let s3 := { s2 with next_subgroup_id := v3 }
        match read_int st3 with
        | none => (false, s3)
        | some (v4, st4) =>
          let s4 := { s3 with next_product_id := v4 }
          if v1 < 0 ∨ 10000 < v1 ∨ v2 ≤ 0 ∨ v3 ≤ 0 ∨ v4 ≤ 0 then
            (false, s4)
          else
            match read_categories v1.toNat st4 with
            | none => (false, datastore_free s4)
            | some (cats, _) =>
              (true, { s4 with categories := cats, is_modified := false })

/-- Model of `datastore_load` (utils.c:644-658 entry): when `fopen` fails (no file
at the path) it reports success and leaves the store exactly as passed
in; otherwise it loads from the stream. -/
def datastore_load (s : DataStore) (file : Option (List FVal)) :
    Bool × DataStore :=
  match file with
  | none => (true, s)
  | some st => datastore_load_stream s st

end PMS

namespace V2

/-- Model of `isspace` in the C locale (used by this variant's `trim_string` and
`is_empty_string`): space, `\t`, `\n`, vertical tab, form feed, `\r`. -/
def c_isspace (c : Char) : Bool :=
  c == ' ' || c == '\t' || c == '\n' || c == '\x0b' || c == '\x0c' || c == '\r'

/-- Model of `trim_string` (product.c/`unnamed/part_001`:19-39): drop leading and
trailing `isspace` characters. -/
def trim_string (s : List Char) : List Char :=
  ((s.dropWhile c_isspace).reverse.dropWhile c_isspace).reverse

/-- Model of `is_empty_string` (part_001:46-56): NULL, empty, or all-whitespace. -/
def is_empty_string (s : List Char) : Bool :=
  s.all c_isspace

/-- Model of `Product` of the stricter variant
(`lab1/src/product-management-system/include/product.h`):
`name` is `char[100]`, `description` is `char[256]`, `price` a `double`. -/
structure Product where
  id : Int
  name : List Char
  price : ℚ
  quantity : Int
  description : List Char
deriving DecidableEq, Repr

/-- The sentinel invalid product `Product_create` starts from
(part_001:63-68). -/
def invalid_product : Product :=
  { id := -1, name := [], price := 0, quantity := 0, description := [] }

/-- Model of `Product_create` (part_001:60-115): full validation up front — the
sentinel is returned for a non-positive id, an empty/whitespace-only
name, a negative price or a negative quantity; otherwise the name is
copied with bounds checking (truncation to 99 chars) and trimmed, and an
absent description becomes the literal `"No description"`. -/
def Product_create (id : Int) (name : List Char) (price : ℚ) (quantity : Int)
    (description : List Char) : Product :=
  if id ≤ 0 then invalid_product
  else if is_empty_string name then invalid_product
  else if price < 0 then invalid_product
  else if quantity < 0 then invalid_product
  else
    { id := id
      name := trim_string (name.take 99)
      price := price
      quantity := quantity
      description :=
        if is_empty_string description then "No description".toList
        else trim_string (description.take 255) }

/-- Model of `Product_updatePrice` (part_001:117-138): rejects an uninitialized
product and a negative price, leaving the product untouched. -/
def Product_updatePrice (p : Product) (new_price : ℚ) : Bool × Product :=
  if p.id ≤ 0 then (false, p)
  else if new_price < 0 then (false, p)
  else (true, { p with price := new_price })

/-- Model of `Product_updateQuantity` (part_001:140-161). -/
def Product_updateQuantity (p : Product) (new_quantity : Int) :
    Bool × Product :=
  if p.id ≤ 0 then (false, p)
  else if new_quantity < 0 then (false, p)
  else (true, { p with quantity := new_quantity })

/-- Model of `Product_updateName` (part_001:163-188): the emptiness/whitespace
check happens BEFORE the copy in this variant, so a rejection leaves the
product untouched. -/
def Product_updateName (p : Product) (new_name : List Char) : Bool × Product :=
  if p.id ≤ 0 then (false, p)
  else if is_empty_string new_name then (false, p)
  else (true, { p with name := trim_string (new_name.take 99) })

/-- Model of `Subgroup` of the stricter variant
(`include/subgroup.h`): the products array starts NULL and
`product_count` is `-1` for the uninitialized sentinel, so the count is
kept as an explicit field next to the list of live products. -/
structure Subgroup where
  name : List Char
  products : List Product
  product_count : Int
deriving DecidableEq, Repr

/-- Model of `Subgroup_findProductById` (subgroup.c:247-261): NULL for an
uninitialized subgroup, else first id match among the live products. -/
def Subgroup_findProductById (sg : Subgroup) (product_id : Int) :
    Option Product :=
  if sg.product_count < 0 then none
  else sg.products.find? (fun p => p.id == product_id)

/-- Model of `Subgroup_productExists` (subgroup.c:299-301). -/
def Subgroup_productExists (sg : Subgroup) (product_id : Int) : Bool :=
  (Subgroup_findProductById sg product_id).isSome

/-- Model of `Subgroup_addProduct` (subgroup.c:132-174): rejects an uninitialized
subgroup, a non-positive product id, and — unlike the other variant — a
DUPLICATE product id; otherwise grows the array by one and appends
(`realloc` assumed to succeed). -/
def Subgroup_addProduct (sg : Subgroup) (p : Product) : Bool × Subgroup :=
  if sg.product_count < 0 then (false, sg)
  else if p.id ≤ 0 then (false, sg)
  else if Subgroup_productExists sg p.id then (false, sg)
  else (true, { sg with products := sg.products ++ [p]
                        product_count := sg.product_count + 1 })

end V2

namespace PMS

theorem swap_pop_def {α : Type} {l : List α} (i : Nat) (h : 0 < l.length) :
    swap_pop l i =
      (l.set i (l.get ⟨l.length - 1, by omega⟩)).dropLast := by
  unfold swap_pop
  rw [List.getLast?_eq_getElem?, List.getElem?_eq_getElem (by omega)]
  simp

theorem length_swap_pop {α : Type} {l : List α} (i : Nat) (h : 0 < l.length) :
    (swap_pop l i).length = l.length - 1 := by
  rw [swap_pop_def i h]
  simp

/-- The elements surviving a swap-and-pop at a valid index `i` are exactly
the elements of the original list at positions other than `i`. -/
theorem mem_swap_pop {α : Type} {l : List α} {i : Nat} (hi : i < l.length)
    {x : α} :
    x ∈ swap_pop l i ↔ ∃ j, ∃ hj : j < l.length, j ≠ i ∧ l.get ⟨j, hj⟩ = x := by
  have h0 : 0 < l.length := by omega
  rw [swap_pop_def i h0]
  constructor
  · intro hx
    obtain ⟨k, hk, hkx⟩ := List.mem_iff_getElem.mp hx
    have hk1 : k < l.length - 1 := by simpa using hk
    rw [List.getElem_dropLast, List.getElem_set] at hkx
    by_cases hik : i = k
    · subst hik
      simp only [if_pos rfl] at hkx
      refine ⟨l.length - 1, by omega, by omega, ?_⟩
      simpa [List.get_eq_getElem] using hkx
    · simp only [if_neg hik] at hkx
      exact ⟨k, by omega, fun hc => hik hc.symm, by
        simpa [List.get_eq_getElem] using hkx⟩
  · rintro ⟨j, hj, hji, rfl⟩
    apply List.mem_iff_getElem.mpr
    by_cases hj1 : j < l.length - 1
    · refine ⟨j, by simpa using hj1, ?_⟩
      rw [List.getElem_dropLast, List.getElem_set, if_neg (fun hc => hji hc.symm)]
      simp [List.get_eq_getElem]
    · have hjl : j = l.length - 1 := by omega
      have hil : i < l.length - 1 := by omega
      refine ⟨i, by simpa using hil, ?_⟩
      rw [List.getElem_dropLast, List.getElem_set, if_pos rfl]
      simp [List.get_eq_getElem, hjl]

theorem find_index_eq_none_iff {α : Type} {p : α → Bool} {l : List α} :
    find_index p l = none ↔ ∀ a ∈ l, p a = false := by
  induction l with
  | nil => simp [find_index]
  | cons a t ih =>
    unfold find_index
    by_cases hpa : p a = true
    · simp [hpa]
    · have hpa' : p a = false := by simpa using hpa
      rw [if_neg hpa]
      constructor
      · intro h
        have ht : find_index p t = none := by
          cases hfi : find_index p t with
          | none => rfl
          | some k => rw [hfi] at h; simp at h
        intro b hb
        rcases List.mem_cons.mp hb with rfl | hb
        · exact hpa'
        · exact ih.mp ht b hb
      · intro h
        have ht : find_index p t = none :=
          ih.mpr fun b hb => h b (List.mem_cons_of_mem a hb)
        rw [ht]
        rfl

theorem find_index_eq_some {α : Type} {p : α → Bool} {l : List α} {i : Nat}
    (h : find_index p l = some i) :
    ∃ hi : i < l.length, p (l.get ⟨i, hi⟩) = true := by
  induction l generalizing i with
  | nil => simp [find_index] at h
  | cons a t ih =>
    unfold find_index at h
    by_cases hpa : p a = true
    · rw [if_pos hpa] at h
      injection h with h
      subst h
      exact ⟨by simp, hpa⟩
    · rw [if_neg hpa] at h
      cases hfi : find_index p t with
      | none => rw [hfi] at h; simp at h
      | some k =>
        rw [hfi] at h
        simp only [Option.map_some'] at h
        injection h with h
        subst h
        obtain ⟨hk, hpk⟩ := ih hfi
        exact ⟨by simp only [List.length_cons]; omega, by
          simpa [List.get_eq_getElem] using hpk⟩

/-- The load-time bound on one subgroup (`product_count ≤ 10000`; the
lower bound holds for free for a saved list). -/
def sg_ok (sg : Subgroup) : Bool :=
  decide (sg.products.length ≤ 10000)

/-- The load-time bounds below one category. -/
def cat_ok (c : Category) : Bool :=
  decide (c.subgroups.length ≤ 1000) && c.subgroups.all sg_ok

/-- All the load-time bounds for a whole store: header bounds plus the
per-category and per-subgroup count bounds. -/
def store_ok (s : DataStore) : Bool :=
  decide (s.category_count ≤ 10000) && decide (1 ≤ s.next_category_id) &&
  decide (1 ≤ s.next_subgroup_id) && decide (1 ≤ s.next_product_id) &&
  s.categories.all cat_ok

theorem read_products_ser (ps : List Product) (rest : List FVal) :
    read_products ps.length (ps.map FVal.pval ++ rest) = some (ps, rest) := by
  induction ps with
  | nil => rfl
  | cons p t ih =>
    simp [read_products, read_prod, ih]

theorem read_subgroup_ser (sg : Subgroup) (rest : List FVal) :
    read_subgroup (ser_subgroup sg ++ rest) =
      if sg_ok sg then some (sg, rest) else none := by
  obtain ⟨i, c, n, d, ps⟩ := sg
  simp only [ser_subgroup, List.cons_append, read_subgroup, read_int, read_str,
    sg_ok, Option.pure_def, Option.bind_eq_bind, Option.some_bind]
  by_cases h : ps.length ≤ 10000
  · have hcond : ¬((ps.length : Int) < 0 ∨ 10000 < (ps.length : Int)) := by
      omega
    rw [if_neg hcond, if_pos (by simpa using h)]
    simp [Int.toNat_natCast, read_products_ser]
  · have hcond : (ps.length : Int) < 0 ∨ 10000 < (ps.length : Int) := by
      omega
    rw [if_pos hcond, if_neg (by simpa using h)]

theorem read_subgroups_ser (sgs : List Subgroup) (rest : List FVal) :
    read_subgroups sgs.length ((sgs.map ser_subgroup).flatten ++ rest) =
      if sgs.all sg_ok then some (sgs, rest) else none := by
  induction sgs with
  | nil => simp [read_subgroups]
  | cons sg t ih =>
    simp only [List.map_cons, List.flatten_cons, List.append_assoc,
      List.length_cons, read_subgroups, List.all_cons]
    rw [read_subgroup_ser]
    by_cases h : sg_ok sg
    · rw [if_pos h]
      simp only [Option.pure_def, Option.bind_eq_bind, Option.some_bind]
      rw [ih]
      by_cases ht : t.all sg_ok
      · rw [if_pos ht, if_pos (by simp [h, ht])]
        simp
      · rw [if_neg ht, if_neg (by simp [ht])]
        simp
    · rw [if_neg h]
      simp [h]

theorem read_category_ser (c : Category) (rest : List FVal) :
    read_category (ser_category c ++ rest) =
      if cat_ok c then some (c, rest) else none := by
  obtain ⟨i, n, d, sgs⟩ := c
  simp only [ser_category, List.cons_append, List.append_assoc, read_category,
    read_int, read_str, cat_ok, Option.pure_def, Option.bind_eq_bind,
    Option.some_bind]
  by_cases h : sgs.length ≤ 1000
  · have hcond : ¬((sgs.length : Int) < 0 ∨ 1000 < (sgs.length : Int)) := by
      omega
    rw [if_neg hcond]
    simp only [Int.toNat_natCast]
    rw [read_subgroups_ser]
    by_cases hall : sgs.all sg_ok
    · rw [if_pos hall, if_pos (by simp [hall, h])]
      simp
    · rw [if_neg hall, if_neg (by simp [hall])]
      simp
  · have hcond : (sgs.length : Int) < 0 ∨ 1000 < (sgs.length : Int) := by
      omega
    rw [if_pos hcond, if_neg (by simp [h])]

theorem read_categories_ser (cs : List Category) (rest : List FVal) :
    read_categories cs.length ((cs.map ser_category).flatten ++ rest) =
      if cs.all cat_ok then some (cs, rest) else none := by
  induction cs with
  | nil => simp [read_categories]
  | cons c t ih =>
    simp only [List.map_cons, List.flatten_cons, List.append_assoc,
      List.length_cons, read_categories, List.all_cons]
    rw [read_category_ser]
    by_cases h : cat_ok c
    · rw [if_pos h]
      simp only [Option.pure_def, Option.bind_eq_bind, Option.some_bind]
      rw [ih]
      by_cases ht : t.all cat_ok
      · rw [if_pos ht, if_pos (by simp [h, ht])]
        simp
      · rw [if_neg ht, if_neg (by simp [ht])]
        simp
    · rw [if_neg h]
      simp [h]

/-- A list produced by `read_categories n` has exactly `n` elements. -/
theorem read_categories_length {n : Nat} {st : List FVal}
    {cs : List Category} {rest : List FVal}
    (h : read_categories n st = some (cs, rest)) : cs.length = n := by
  induction n generalizing st cs rest with
  | zero =>
    simp only [read_categories, Option.some.injEq] at h
    cases h
    rfl
  | succ m ih =>
    simp only [read_categories] at h
    cases hc : read_category st with
    | none => rw [hc] at h; simp at h
    | some v =>
      rw [hc] at h
      obtain ⟨c1, st1⟩ := v
      simp only [Option.pure_def, Option.bind_eq_bind, Option.some_bind] at h
      cases hcs : read_categories m st1 with
      | none => rw [hcs] at h; simp at h
      | some w =>
        rw [hcs] at h
        obtain ⟨cs1, rest1⟩ := w
        simp only [Option.pure_def, Option.bind_eq_bind, Option.some_bind,
          Option.some.injEq, Prod.mk.injEq] at h
        obtain ⟨⟨rfl, rfl⟩, rfl⟩ := h
        simp [ih hcs]

/-- Loading a saved well-formed store succeeds and reproduces the saved
fields whenever the store is within the loader's count bounds. -/
theorem load_save_ok {s : DataStore} (t : DataStore)
    (hwf : s.category_count = (s.categories.length : Int))
    (hok : store_ok s = true) :
    datastore_load_stream t (datastore_save s).1 =
      (true, { categories := s.categories
               category_count := s.category_count
               next_category_id := s.next_category_id
               next_subgroup_id := s.next_subgroup_id
               next_product_id := s.next_product_id
               is_modified := false }) := by
  simp only [store_ok, Bool.and_eq_true, decide_eq_true_eq] at hok
  obtain ⟨⟨⟨⟨hc, h1⟩, h2⟩, h3⟩, hall⟩ := hok
  have htake : s.categories.take s.category_count.toNat = s.categories := by
    rw [hwf, Int.toNat_natCast, List.take_length]
  simp only [datastore_save, htake, datastore_load_stream, read_int]
  have hcond : ¬(s.category_count < 0 ∨ 10000 < s.category_count ∨
      s.next_category_id ≤ 0 ∨ s.next_subgroup_id ≤ 0 ∨
      s.next_product_id ≤ 0) := by
    omega
  rw [if_neg hcond, hwf, Int.toNat_natCast,
    ← List.append_nil ((s.categories.map ser_category).flatten),
    read_categories_ser, if_pos hall]

/-- Loading a saved well-formed store that violates some count bound
fails. -/
theorem load_save_bad {s : DataStore} (t : DataStore)
    (hwf : s.category_count = (s.categories.length : Int))
    (hbad : store_ok s = false) :
    (datastore_load_stream t (datastore_save s).1).1 = false := by
  have htake : s.categories.take s.category_count.toNat = s.categories := by
    rw [hwf, Int.toNat_natCast, List.take_length]
  simp only [datastore_save, htake, datastore_load_stream, read_int]
  by_cases hcond : s.category_count < 0 ∨ 10000 < s.category_count ∨
      s.next_category_id ≤ 0 ∨ s.next_subgroup_id ≤ 0 ∨
      s.next_product_id ≤ 0
  · rw [if_pos hcond]
  · rw [if_neg hcond]
    by_cases hall : s.categories.all cat_ok = true
    · exfalso
      have : store_ok s = true := by
        simp only [store_ok, hall, Bool.and_true, Bool.and_eq_true,
          decide_eq_true_eq]
        push_neg at hcond
        omega
      rw [this] at hbad
      simp at hbad
    · rw [hwf, Int.toNat_natCast,
        ← List.append_nil ((s.categories.map ser_category).flatten),
        read_categories_ser, if_neg hall]

/-- Distinct positions in a list whose image under `f` has no duplicates
carry distinct `f`-values. -/
theorem nodup_map_get_inj {α β : Type} {f : α → β} {l : List α}
    (h : (l.map f).Nodup) {i j : Nat} (hi : i < l.length) (hj : j < l.length)
    (hf : f (l.get ⟨i, hi⟩) = f (l.get ⟨j, hj⟩)) : i = j := by
  have hinj := List.nodup_iff_injective_get.mp h
  have hi' : i < (l.map f).length := by simpa using hi
  have hj' : j < (l.map f).length := by simpa using hj
  have : (l.map f).get ⟨i, hi'⟩ = (l.map f).get ⟨j, hj'⟩ := by
    simp only [List.get_eq_getElem, List.getElem_map]
    exact hf
  have := hinj this
  simpa using congrArg Fin.val this

/-- The common swap-and-pop removal pattern, for a collection keyed by
`key` with pairwise-distinct keys: once the linear scan has found index
`i`, popping it shrinks the length by one, removes the key, and keeps
every element stored at another index. -/
theorem swap_pop_removes {α : Type} (key : α → Int) {l : List α} {k : Int}
    {i : Nat} (hnd : (l.map key).Nodup)
    (hfi : find_index (fun a => key a == k) l = some i) :
    (swap_pop l i).length = l.length - 1 ∧
    (∀ q ∈ swap_pop l i, key q ≠ k) ∧
    (∀ q ∈ l, key q ≠ k → q ∈ swap_pop l i) := by
  obtain ⟨hi, hpi⟩ := find_index_eq_some hfi
  have hki : key (l.get ⟨i, hi⟩) = k := by simpa using hpi
  refine ⟨length_swap_pop i (by omega), ?_, ?_⟩
  · intro q hq hqk
    obtain ⟨j, hj, hji, rfl⟩ := (mem_swap_pop hi).mp hq
    exact hji (nodup_map_get_inj hnd hj hi (by rw [hki, hqk]))
  · intro q hq hqk
    obtain ⟨j, hjq⟩ := List.mem_iff_get.mp hq
    apply (mem_swap_pop hi).mpr
    refine ⟨j.1, j.2, ?_, hjq⟩
    intro hji
    apply hqk
    rw [← hjq]
    have : (⟨j.1, j.2⟩ : Fin l.length) = ⟨i, hi⟩ := by
      apply Fin.ext
      exact hji
    rw [show l.get j = l.get ⟨j.1, j.2⟩ from rfl, this, hki]

/-- The empty needle is found in every haystack (`strstr(h, "") == h`). -/
theorem strstr_hit_nil (hs : List Char) : strstr_hit hs [] = true := by
  cases hs with
  | nil => rfl
  | cons c t => simp [strstr_hit, starts_with]

/-- Concrete sample data used by the witnesses: a valid product. -/
def sample_product (i sgid : Int) : Product :=
  product_create i sgid ['C'] ['P'] [] 1 1 []

/-- A subgroup holding two valid products with ids 1 and 2. -/
def sample_subgroup : Subgroup :=
  { id := 1, category_id := 1, name := ['L'], description := []
    products := [sample_product 1 1, sample_product 2 1] }

/-- A category (id 1) owning `sample_subgroup`. -/
def sample_category : Category :=
  { id := 1, name := ['E'], description := [], subgroups := [sample_subgroup] }

/-- A second subgroup (id 2) holding the product with id 3. -/
def sample_subgroup2 : Subgroup :=
  { id := 2, category_id := 2, name := ['M'], description := []
    products := [sample_product 3 2] }

/-- A second category (id 2) owning `sample_subgroup2`. -/
def sample_category2 : Category :=
  { id := 2, name := ['F'], description := [], subgroups := [sample_subgroup2] }

/-- A store holding `sample_category` only. -/
def sample_store : DataStore :=
  { categories := [sample_category], category_count := 1, next_category_id := 2
    next_subgroup_id := 2, next_product_id := 3, is_modified := false }

/-- A store holding both sample categories. -/
def sample_store2 : DataStore :=
  { categories := [sample_category, sample_category2], category_count := 2
    next_category_id := 3, next_subgroup_id := 3, next_product_id := 4
    is_modified := false }

end PMS

/-- C1: Round-trip persistence — for every (well-formed) store whose load
succeeds after a successful save, `datastore_save` followed by
`datastore_load` on the same stream reconstructs a store with the same
category count, the same three next-id counters, and the identical
category/subgroup/product tree (every id, name, description, and numeric
field, the product records being copied verbatim). -/
theorem C1_roundtrip (s t : PMS.DataStore)
    (hwf : s.category_count = (s.categories.length : Int))
    (hok : (PMS.datastore_load_stream t (PMS.datastore_save s).1).1 = true) :
    (PMS.datastore_load_stream t (PMS.datastore_save s).1).2.category_count =
      s.category_count ∧
    (PMS.datastore_load_stream t (PMS.datastore_save s).1).2.next_category_id =
      s.next_category_id ∧
    (PMS.datastore_load_stream t (PMS.datastore_save s).1).2.next_subgroup_id =
      s.next_subgroup_id ∧
    (PMS.datastore_load_stream t (PMS.datastore_save s).1).2.next_product_id =
      s.next_product_id ∧
    (PMS.datastore_load_stream t (PMS.datastore_save s).1).2.categories =
      s.categories := by
  by_cases hso : PMS.store_ok s = true
  · rw [PMS.load_save_ok t hwf hso]
    exact ⟨rfl, rfl, rfl, rfl, rfl⟩
  · have hf := PMS.load_save_bad t hwf (by simpa using hso)
    simp [hf] at hok

/-- Witness for C1 at a concrete store (the freshly initialized store,
whose saved stream loads successfully). -/
theorem C1_roundtrip_witness :
    PMS.datastore_init.category_count =
      (PMS.datastore_init.categories.length : Int) ∧
    (PMS.datastore_load_stream PMS.datastore_init
        (PMS.datastore_save PMS.datastore_init).1).1 = true ∧
    (PMS.datastore_load_stream PMS.datastore_init
        (PMS.datastore_save PMS.datastore_init).1).2.categories =
      PMS.datastore_init.categories :=
  ⟨rfl, rfl, (C1_roundtrip PMS.datastore_init PMS.datastore_init rfl rfl).2.2.2.2⟩

/-- C2 (amended): the stricter variant's `Subgroup_addProduct` rejects a
product whose id already occurs in the subgroup and leaves the subgroup
unchanged; the `ProductManagementSystem` variant's `subgroup_add_product`
performs no duplicate check and appends any product that passes
`product_is_valid`, duplicate id or not. -/
theorem C2_duplicate_id :
    (∀ (sg : V2.Subgroup) (p : V2.Product),
      V2.Subgroup_productExists sg p.id = true →
      V2.Subgroup_addProduct sg p = (false, sg)) ∧
    (∀ (sg : PMS.Subgroup) (p : PMS.Product),
      PMS.product_is_valid p = true →
      PMS.subgroup_add_product sg p =
        (true, { sg with products := sg.products ++ [p] })) := by
  constructor
  · intro sg p hdup
    unfold V2.Subgroup_addProduct
    have hcount : ¬sg.product_count < 0 := by
      intro hneg
      unfold V2.Subgroup_productExists V2.Subgroup_findProductById at hdup
      rw [if_pos hneg] at hdup
      simp at hdup
    rw [if_neg hcount]
    by_cases hid : p.id ≤ 0
    · rw [if_pos hid]
    · rw [if_neg hid, if_pos hdup]
  · intro sg p hv
    unfold PMS.subgroup_add_product
    rw [if_pos hv]

/-- Witness for C2 (amended), at a concrete duplicate id in each
variant. -/
theorem C2_duplicate_id_witness :
    V2.Subgroup_productExists
      ⟨['L'], [V2.Product_create 1 ['P'] 1 1 []], 1⟩
      (V2.Product_create 1 ['Q'] 2 2 []).id = true ∧
    V2.Subgroup_addProduct ⟨['L'], [V2.Product_create 1 ['P'] 1 1 []], 1⟩
        (V2.Product_create 1 ['Q'] 2 2 []) =
      (false, ⟨['L'], [V2.Product_create 1 ['P'] 1 1 []], 1⟩) ∧
    PMS.subgroup_add_product PMS.sample_subgroup (PMS.sample_product 1 1) =
      (true, { PMS.sample_subgroup with
                 products := PMS.sample_subgroup.products ++
                   [PMS.sample_product 1 1] }) :=
  ⟨by decide,
   C2_duplicate_id.1 ⟨['L'], [V2.Product_create 1 ['P'] 1 1 []], 1⟩
     (V2.Product_create 1 ['Q'] 2 2 []) (by decide),
   C2_duplicate_id.2 PMS.sample_subgroup (PMS.sample_product 1 1) (by decide)⟩

/-- Counterexample to C2 as stated: in the `ProductManagementSystem`
variant, `sample_subgroup` already holds a product with id 1, yet adding
another valid product with id 1 SUCCEEDS and grows `product_count` from 2
to 3 — the duplicate is not rejected. -/
theorem C2_counterexample :
    (PMS.sample_subgroup.products.any fun p => p.id == 1) = true ∧
    (PMS.subgroup_add_product PMS.sample_subgroup
        (PMS.sample_product 1 1)).1 = true ∧
    PMS.sample_subgroup.products.length = 2 ∧
    (PMS.subgroup_add_product PMS.sample_subgroup
        (PMS.sample_product 1 1)).2.products.length = 3 := by
  decide

/-- C3: Swap-remove correctness, for both removal sites cited — a
collection (with pairwise-distinct keys, the store invariant) containing
the requested key yields success, size `n-1`, the removed key absent and
every other element still present; without the key, removal fails and the
collection is returned unchanged. -/
theorem C3_swap_remove_correct :
    (∀ (sg : PMS.Subgroup) (k : Int),
      (sg.products.map PMS.Product.id).Nodup →
      ((sg.products.any fun p => p.id == k) = true →
        (PMS.subgroup_remove_product sg k).1 = true ∧
        (PMS.subgroup_remove_product sg k).2.products.length =
          sg.products.length - 1 ∧
        (∀ q ∈ (PMS.subgroup_remove_product sg k).2.products, q.id ≠ k) ∧
        (∀ q ∈ sg.products, q.id ≠ k →
          q ∈ (PMS.subgroup_remove_product sg k).2.products)) ∧
      ((sg.products.any fun p => p.id == k) = false →
        PMS.subgroup_remove_product sg k = (false, sg))) ∧
    (∀ (s : PMS.DataStore) (k : Int),
      (s.categories.map PMS.Category.id).Nodup →
      ((s.categories.any fun c => c.id == k) = true →
        (PMS.datastore_remove_category s k).1 = true ∧
        (PMS.datastore_remove_category s k).2.categories.length =
          s.categories.length - 1 ∧
        (∀ c ∈ (PMS.datastore_remove_category s k).2.categories, c.id ≠ k) ∧
        (∀ c ∈ s.categories, c.id ≠ k →
          c ∈ (PMS.datastore_remove_category s k).2.categories)) ∧
      ((s.categories.any fun c => c.id == k) = false →
        PMS.datastore_remove_category s k = (false, s))) := by
  constructor
  · intro sg k hnd
    constructor
    · intro hany
      obtain ⟨p0, hp0mem, hp0⟩ := List.any_eq_true.mp hany
      have hne : sg.products.length ≠ 0 := by
        intro h0
        rw [List.length_eq_zero] at h0
        rw [h0] at hp0mem
        simp at hp0mem
      cases hfi : PMS.find_index (fun p => p.id == k) sg.products with
      | none =>
        exfalso
        have := PMS.find_index_eq_none_iff.mp hfi p0 hp0mem
        rw [hp0] at this
        simp at this
      | some i =>
        obtain ⟨hlen, hrem, hkeep⟩ :=
          PMS.swap_pop_removes PMS.Product.id hnd hfi
        unfold PMS.subgroup_remove_product
        rw [if_neg hne, hfi]
        exact ⟨rfl, hlen, hrem, hkeep⟩
    · intro hnone
      have hfi : PMS.find_index (fun p => p.id == k) sg.products = none := by
        rw [PMS.find_index_eq_none_iff]
        intro a ha
        have := List.any_eq_false.mp hnone a ha
        simpa using this
      unfold PMS.subgroup_remove_product
      by_cases h0 : sg.products.length = 0
      · rw [if_pos h0]
      · rw [if_neg h0, hfi]
  · intro s k hnd
    constructor
    · intro hany
      obtain ⟨c0, hc0mem, hc0⟩ := List.any_eq_true.mp hany
      cases hfi : PMS.find_index (fun c => c.id == k) s.categories with
      | none =>
        exfalso
        have := PMS.find_index_eq_none_iff.mp hfi c0 hc0mem
        rw [hc0] at this
        simp at this
      | some i =>
        obtain ⟨hlen, hrem, hkeep⟩ :=
          PMS.swap_pop_removes PMS.Category.id hnd hfi
        unfold PMS.datastore_remove_category
        rw [hfi]
        exact ⟨rfl, hlen, hrem, hkeep⟩
    · intro hnone
      have hfi : PMS.find_index (fun c => c.id == k) s.categories = none := by
        rw [PMS.find_index_eq_none_iff]
        intro a ha
        have := List.any_eq_false.mp hnone a ha
        simpa using this
      unfold PMS.datastore_remove_category
      rw [hfi]

/-- Witness for C3 at a concrete subgroup of size 2 and a concrete store
of size 2. -/
theorem C3_swap_remove_correct_witness :
    (PMS.sample_subgroup.products.map PMS.Product.id).Nodup ∧
    (PMS.sample_subgroup.products.any fun p => p.id == 1) = true ∧
    (PMS.subgroup_remove_product PMS.sample_subgroup 1).1 = true ∧
    (PMS.subgroup_remove_product PMS.sample_subgroup 1).2.products.length =
      PMS.sample_subgroup.products.length - 1 ∧
    (PMS.datastore_remove_category PMS.sample_store2 7).1 = false :=
  ⟨by decide, by decide,
   ((C3_swap_remove_correct.1 PMS.sample_subgroup 1 (by decide)).1
     (by decide)).1,
   ((C3_swap_remove_correct.1 PMS.sample_subgroup 1 (by decide)).1
     (by decide)).2.1,
   by
    rw [(C3_swap_remove_correct.2 PMS.sample_store2 7 (by decide)).2
      (by decide)]⟩

/-- C4: Cascade delete — removing the category found at index `i` (for a
store with pairwise-distinct category ids) succeeds, after which every
subgroup id and product id owned by that category and by no other
category is no longer findable, while every subgroup owned by another
category remains findable. -/
theorem C4_cascade_delete (s : PMS.DataStore) (cid : Int) (i : Nat)
    (hin : i < s.categories.length)
    (hfi : PMS.find_index (fun c => c.id == cid) s.categories = some i)
    (hnodup : (s.categories.map PMS.Category.id).Nodup) :
    (PMS.datastore_remove_category s cid).1 = true ∧
    (∀ sid : Int,
      ((s.categories.get ⟨i, hin⟩).subgroups.any fun sg => sg.id == sid) =
        true →
      (∀ c ∈ s.categories, c.id ≠ cid → ∀ sg ∈ c.subgroups, sg.id ≠ sid) →
      PMS.datastore_find_subgroup_by_id
        (PMS.datastore_remove_category s cid).2 sid = none) ∧
    (∀ pid : Int,
      ((s.categories.get ⟨i, hin⟩).subgroups.any fun sg =>
        sg.products.any fun p => p.id == pid) = true →
      (∀ c ∈ s.categories, c.id ≠ cid →
        ∀ sg ∈ c.subgroups, ∀ p ∈ sg.products, p.id ≠ pid) →
      PMS.datastore_find_product_by_id
        (PMS.datastore_remove_category s cid).2 pid = none) ∧
    (∀ c ∈ s.categories, c.id ≠ cid →
      ∀ sg ∈ c.subgroups,
        (PMS.datastore_find_subgroup_by_id
          (PMS.datastore_remove_category s cid).2 sg.id).isSome = true) := by
  have hci : (s.categories.get ⟨i, hin⟩).id = cid := by
    obtain ⟨hi2, hp⟩ := PMS.find_index_eq_some hfi
    simpa using hp
  -- elements of the post-removal category list
  have hmem : ∀ c ∈ (PMS.datastore_remove_category s cid).2.categories,
      c ∈ s.categories ∧ c.id ≠ cid := by
    intro c hc
    unfold PMS.datastore_remove_category at hc
    rw [hfi] at hc
    obtain ⟨j, hj, hji, rfl⟩ := (PMS.mem_swap_pop hin).mp hc
    refine ⟨List.get_mem s.categories j hj, ?_⟩
    intro hceq
    exact hji (PMS.nodup_map_get_inj hnodup hj hin (by rw [hceq, hci]))
  have hmem' : ∀ c ∈ s.categories, c.id ≠ cid →
      c ∈ (PMS.datastore_remove_category s cid).2.categories := by
    intro c hc hcne
    unfold PMS.datastore_remove_category
    rw [hfi]
    obtain ⟨j, hjc⟩ := List.mem_iff_get.mp hc
    apply (PMS.mem_swap_pop hin).mpr
    refine ⟨j.1, j.2, ?_, hjc⟩
    intro hji
    apply hcne
    rw [← hjc]
    have : (⟨j.1, j.2⟩ : Fin s.categories.length) = ⟨i, hin⟩ := Fin.ext hji
    rw [show s.categories.get j = s.categories.get ⟨j.1, j.2⟩ from rfl, this,
      hci]
  refine ⟨?_, ?_, ?_, ?_⟩
  · unfold PMS.datastore_remove_category
    rw [hfi]
  · intro sid _ hunique
    rw [PMS.datastore_find_subgroup_by_id,
      List.findSome?_eq_none_iff]
    intro c hc
    obtain ⟨hcs, hcne⟩ := hmem c hc
    rw [PMS.category_find_subgroup_by_id, List.find?_eq_none]
    intro sg hsg
    simpa using hunique c hcs hcne sg hsg
  · intro pid _ hunique
    rw [PMS.datastore_find_product_by_id, List.findSome?_eq_none_iff]
    intro c hc
    obtain ⟨hcs, hcne⟩ := hmem c hc
    rw [List.findSome?_eq_none_iff]
    intro sg hsg
    rw [PMS.subgroup_find_product_by_id, List.find?_eq_none]
    intro p hp
    simpa using hunique c hcs hcne sg hsg p hp
  · intro c hc hcne sg hsg
    have hc' := hmem' c hc hcne
    rw [Option.isSome_iff_ne_none]
    intro hnone
    rw [PMS.datastore_find_subgroup_by_id, List.findSome?_eq_none_iff] at hnone
    have := hnone c hc'
    rw [PMS.category_find_subgroup_by_id, List.find?_eq_none] at this
    exact this sg hsg (by simp)

/-- Witness for C4 on a concrete two-category store: removing category 1
makes subgroup 1 and product 1 unfindable while subgroup 2 (owned by
category 2) stays findable. -/
theorem C4_cascade_delete_witness :
    (PMS.datastore_remove_category PMS.sample_store2 1).1 = true ∧
    PMS.datastore_find_subgroup_by_id
      (PMS.datastore_remove_category PMS.sample_store2 1).2 1 = none ∧
    PMS.datastore_find_product_by_id
      (PMS.datastore_remove_category PMS.sample_store2 1).2 1 = none ∧
    (PMS.datastore_find_subgroup_by_id
      (PMS.datastore_remove_category PMS.sample_store2 1).2
      PMS.sample_subgroup2.id).isSome = true := by
  have T := C4_cascade_delete PMS.sample_store2 1 0 (by decide) (by decide)
    (by decide)
  exact ⟨T.1, T.2.1 1 (by decide) (by decide), T.2.2.1 1 (by decide) (by decide),
    T.2.2.2 PMS.sample_category2 (by decide) (by decide) PMS.sample_subgroup2
      (by decide)⟩

/-- C5 (amended): on success, `datastore_add_category` appends the
category to the Categories array, increments `category_count`, and sets
the dirty flag, while leaving `next_category_id` UNCHANGED; the increment
of `next_category_id` is performed by the UI wrapper `add_category` in
`main.c` after a successful `datastore_add_category`. -/
theorem C5_add_category (s : PMS.DataStore) (c : PMS.Category)
    (h : (PMS.datastore_add_category s c).1 = true) :
    (PMS.datastore_add_category s c).2.categories = s.categories ++ [c] ∧
    (PMS.datastore_add_category s c).2.category_count =
      s.category_count + 1 ∧
    (PMS.datastore_add_category s c).2.is_modified = true ∧
    (PMS.datastore_add_category s c).2.next_category_id =
      s.next_category_id ∧
    (∀ name description : List Char,
      name.length ≠ 0 →
      PMS.category_is_valid
        (PMS.category_create s.next_category_id name description) = true →
      (PMS.add_category s name description).next_category_id =
        s.next_category_id + 1 ∧
      (PMS.add_category s name description).categories =
        s.categories ++
          [PMS.category_create s.next_category_id name description] ∧
      (PMS.add_category s name description).is_modified = true) := by
  have hv : PMS.category_is_valid c = true := by
    by_contra hnv
    unfold PMS.datastore_add_category at h
    rw [if_neg hnv] at h
    simp at h
  unfold PMS.datastore_add_category
  rw [if_pos hv]
  refine ⟨rfl, rfl, rfl, rfl, ?_⟩
  intro name description hname hvalid
  simp [PMS.add_category, PMS.datastore_add_category, hname, hvalid]

/-- Witness for C5 (amended) on the empty store and a valid category. -/
theorem C5_add_category_witness :
    (PMS.datastore_add_category PMS.datastore_init
        (PMS.category_create 1 ['A'] [])).1 = true ∧
    (PMS.datastore_add_category PMS.datastore_init
        (PMS.category_create 1 ['A'] [])).2.next_category_id =
      PMS.datastore_init.next_category_id ∧
    (PMS.add_category PMS.datastore_init ['A'] []).next_category_id =
      PMS.datastore_init.next_category_id + 1 :=
  ⟨by decide,
   (C5_add_category PMS.datastore_init (PMS.category_create 1 ['A'] [])
       (by decide)).2.2.2.1,
   ((C5_add_category PMS.datastore_init (PMS.category_create 1 ['A'] [])
       (by decide)).2.2.2.2 ['A'] [] (by decide) (by decide)).1⟩

/-- Counterexample to C5 as stated: `datastore_add_category` on the
freshly initialized store succeeds but leaves `next_category_id` at 1 —
the claimed increment to 2 does not happen inside this function. -/
theorem C5_counterexample :
    (PMS.datastore_add_category PMS.datastore_init
        (PMS.category_create 1 ['A'] [])).1 = true ∧
    (PMS.datastore_add_category PMS.datastore_init
        (PMS.category_create 1 ['A'] [])).2.next_category_id = 1 ∧
    (PMS.datastore_add_category PMS.datastore_init
        (PMS.category_create 1 ['A'] [])).2.next_category_id ≠
      PMS.datastore_init.next_category_id + 1 := by
  decide

/-- C6 (amended): the embedded mutating operations set `is_modified`, and
a successful `datastore_save` clears it; but `datastore_save` is NOT the
only core operation that clears it — `datastore_load` on an existing file
reinitializes the store and leaves `is_modified = false` on every path,
success or failure, while a load on a missing file preserves the store
(and its flag) unchanged. -/
theorem C6_dirty_flag :
    (∀ (s : PMS.DataStore) (c : PMS.Category),
      (PMS.datastore_add_category s c).1 = true →
      (PMS.datastore_add_category s c).2.is_modified = true) ∧
    (∀ (s : PMS.DataStore) (k : Int),
      (PMS.datastore_remove_category s k).1 = true →
      (PMS.datastore_remove_category s k).2.is_modified = true) ∧
    (∀ s : PMS.DataStore, (PMS.datastore_save s).2.is_modified = false) ∧
    (∀ (s : PMS.DataStore) (st : List PMS.FVal),
      (PMS.datastore_load_stream s st).2.is_modified = false) ∧
    (∀ s : PMS.DataStore, PMS.datastore_load s none = (true, s)) := by
  refine ⟨?_, ?_, fun s => rfl, ?_, fun s => rfl⟩
  · intro s c h
    unfold PMS.datastore_add_category at h ⊢
    by_cases hv : PMS.category_is_valid c = true
    · rw [if_pos hv]
    · rw [if_neg hv] at h
      simp at h
  · intro s k h
    unfold PMS.datastore_remove_category at h ⊢
    cases hfi : PMS.find_index (fun c => c.id == k) s.categories with
    | none => rw [hfi] at h; simp at h
    | some i => rfl
  · intro s st
    unfold PMS.datastore_load_stream
    (repeat' split) <;> rfl

/-- Witness for C6 (amended) at concrete inputs. -/
theorem C6_dirty_flag_witness :
    (PMS.datastore_add_category PMS.datastore_init
        (PMS.category_create 1 ['A'] [])).2.is_modified = true ∧
    (PMS.datastore_remove_category PMS.sample_store2 1).2.is_modified =
      true ∧
    (PMS.datastore_save PMS.sample_store2).2.is_modified = false ∧
    (PMS.datastore_load_stream PMS.sample_store2
        [PMS.FVal.ival 0, PMS.FVal.ival 1, PMS.FVal.ival 1,
         PMS.FVal.ival 1]).2.is_modified = false :=
  ⟨C6_dirty_flag.1 PMS.datastore_init (PMS.category_create 1 ['A'] [])
     (by decide),
   C6_dirty_flag.2.1 PMS.sample_store2 1 (by decide),
   C6_dirty_flag.2.2.1 PMS.sample_store2,
   C6_dirty_flag.2.2.2.1 PMS.sample_store2
     [PMS.FVal.ival 0, PMS.FVal.ival 1, PMS.FVal.ival 1, PMS.FVal.ival 1]⟩

/-- Counterexample to C6 as stated: a store whose dirty flag is true,
loaded from an existing (valid, empty) file, ends with
`is_modified = false` — the true→false transition happened through
`datastore_load`, not through `datastore_save`. -/
theorem C6_counterexample :
    ({ PMS.datastore_init with is_modified := true } :
      PMS.DataStore).is_modified = true ∧
    (PMS.datastore_load_stream
        { PMS.datastore_init with is_modified := true }
        [PMS.FVal.ival 0, PMS.FVal.ival 1, PMS.FVal.ival 1,
         PMS.FVal.ival 1]).1 = true ∧
    (PMS.datastore_load_stream
        { PMS.datastore_init with is_modified := true }
        [PMS.FVal.ival 0, PMS.FVal.ival 1, PMS.FVal.ival 1,
         PMS.FVal.ival 1]).2.is_modified = false := by
  decide

/-- C7 (amended): the validation boundary holds as claimed — price 0 and
quantity 0 accepted, negative price/quantity rejected with the product
untouched, empty and all-whitespace names rejected, over-long names
truncated rather than rejected — EXCEPT that `product_update_name`
rejects an all-whitespace name only after having already overwritten the
name field, leaving it empty; so that one rejection IS partially applied
(`Product_create` and the price/quantity updates never are). -/
theorem C7_validation_boundary :
    (∀ (p : PMS.Product) (now : List Char),
      PMS.product_update_price p 0 now =
        (true, PMS.product_update_timestamp { p with price := 0 } now)) ∧
    (∀ (p : PMS.Product) (pr : ℚ) (now : List Char), pr < 0 →
      PMS.product_update_price p pr now = (false, p)) ∧
    (∀ (p : PMS.Product) (now : List Char),
      PMS.product_update_quantity p 0 now =
        (true, PMS.product_update_timestamp { p with quantity := 0 } now)) ∧
    (∀ (p : PMS.Product) (q : Int) (now : List Char), q < 0 →
      PMS.product_update_quantity p q now = (false, p)) ∧
    (∀ (id : Int) (name desc : List Char), 0 < id →
      V2.is_empty_string name = false →
      (V2.Product_create id name 0 0 desc).id = id ∧
      (V2.Product_create id name 0 0 desc).price = 0 ∧
      (V2.Product_create id name 0 0 desc).quantity = 0 ∧
      (V2.Product_create id name 0 0 desc).name =
        V2.trim_string (name.take 99)) ∧
    (∀ (id : Int) (name desc : List Char) (pr : ℚ) (qt : Int),
      pr < 0 ∨ qt < 0 →
      V2.Product_create id name pr qt desc = V2.invalid_product) ∧
    (∀ (id : Int) (name desc : List Char) (pr : ℚ) (qt : Int),
      V2.is_empty_string name = true →
      V2.Product_create id name pr qt desc = V2.invalid_product) ∧
    (∀ (p : PMS.Product) (now : List Char),
      PMS.product_update_name p [] now = (false, p)) ∧
    (∀ (p : PMS.Product) (name now : List Char),
      name.length ≠ 0 → PMS.trim_string (name.take 99) = [] →
      PMS.product_update_name p name now = (false, { p with name := [] })) := by
  refine ⟨?_, ?_, ?_, ?_, ?_, ?_, ?_, ?_, ?_⟩
  · intro p now
    unfold PMS.product_update_price
    rw [if_neg (by norm_num)]
  · intro p pr now hpr
    unfold PMS.product_update_price
    rw [if_pos hpr]
  · intro p now
    unfold PMS.product_update_quantity
    rw [if_neg (by norm_num)]
  · intro p q now hq
    unfold PMS.product_update_quantity
    rw [if_pos hq]
  · intro id name desc hid hname
    unfold V2.Product_create
    rw [if_neg (by omega), if_neg (by simp [hname]), if_neg (by norm_num),
      if_neg (by norm_num)]
    exact ⟨rfl, rfl, rfl, rfl⟩
  · intro id name desc pr qt hneg
    unfold V2.Product_create
    by_cases h1 : id ≤ 0
    · rw [if_pos h1]
    · rw [if_neg h1]
      by_cases h2 : V2.is_empty_string name = true
      · rw [if_pos h2]
      · rw [if_neg h2]
        by_cases h3 : pr < 0
        · rw [if_pos h3]
        · rw [if_neg h3, if_pos (by tauto)]
  · intro id name desc pr qt hname
    unfold V2.Product_create
    by_cases h1 : id ≤ 0
    · rw [if_pos h1]
    · rw [if_neg h1, if_pos hname]
  · intro p now
    simp [PMS.product_update_name]
  · intro p name now hname htrim
    unfold PMS.product_update_name
    rw [if_neg hname]
    simp [htrim]

/-- Witness for C7 (amended) at concrete inputs, including the truncation
of a 100-character name to 99 characters. -/
theorem C7_validation_boundary_witness :
    PMS.product_update_price (PMS.sample_product 1 1) 0 [] =
      (true, PMS.product_update_timestamp
        { PMS.sample_product 1 1 with price := 0 } []) ∧
    PMS.product_update_price (PMS.sample_product 1 1) (-1 / 100) [] =
      (false, PMS.sample_product 1 1) ∧
    PMS.product_update_quantity (PMS.sample_product 1 1) (-1) [] =
      (false, PMS.sample_product 1 1) ∧
    V2.Product_create 1 ['X'] (-1 / 100) 3 [] = V2.invalid_product ∧
    V2.Product_create 1 [' ', '\t'] 1 1 [] = V2.invalid_product ∧
    (V2.Product_create 1 (List.replicate 100 'a') 0 0 []).id = 1 ∧
    (V2.Product_create 1 (List.replicate 100 'a') 0 0 []).name =
      List.replicate 99 'a' ∧
    PMS.product_update_name (PMS.sample_product 1 1) [' '] [] =
      (false, { PMS.sample_product 1 1 with name := [] }) := by
  refine ⟨C7_validation_boundary.1 (PMS.sample_product 1 1) [],
    C7_validation_boundary.2.1 (PMS.sample_product 1 1) (-1 / 100) []
      (by norm_num),
    C7_validation_boundary.2.2.2.1 (PMS.sample_product 1 1) (-1) []
      (by norm_num),
    C7_validation_boundary.2.2.2.2.2.1 1 ['X'] [] (-1 / 100) 3
      (Or.inl (by norm_num)),
    C7_validation_boundary.2.2.2.2.2.2.1 1 [' ', '\t'] [] 1 1 (by decide),
    (C7_validation_boundary.2.2.2.2.1 1 (List.replicate 100 'a') []
      (by norm_num) (by decide)).1,
    ?_,
    C7_validation_boundary.2.2.2.2.2.2.2.2 (PMS.sample_product 1 1) [' '] []
      (by decide) (by decide)⟩
  · rw [(C7_validation_boundary.2.2.2.2.1 1 (List.replicate 100 'a') []
      (by norm_num) (by decide)).2.2.2]
    decide

/-- Counterexample to C7 as stated: updating a product's name to the
all-whitespace string `" "` is rejected (returns false), yet the
product's name — previously `"P"` — has been overwritten with the empty
string: the rejected value WAS partially applied. -/
theorem C7_counterexample :
    (PMS.product_update_name (PMS.sample_product 1 1) [' '] []).1 = false ∧
    (PMS.sample_product 1 1).name = ['P'] ∧
    (PMS.product_update_name (PMS.sample_product 1 1) [' '] []).2.name =
      [] ∧
    (PMS.product_update_name (PMS.sample_product 1 1) [' '] []).2 ≠
      PMS.sample_product 1 1 := by
  decide

/-- C8 (amended): `datastore_load` on a missing file reports success and
leaves the store exactly as it was passed in — in the first-run case
(the freshly initialized store) the result is therefore an empty store
with `category_count = 0`. -/
theorem C8_missing_file :
    (∀ s : PMS.DataStore, PMS.datastore_load s none = (true, s)) ∧
    (PMS.datastore_load PMS.datastore_init none).2.category_count = 0 :=
  ⟨fun _ => rfl, rfl⟩

/-- Counterexample to C8 as stated: loading a missing file into a store
that already holds one category reports success but the resulting store
is NOT empty — `category_count` stays 1. -/
theorem C8_counterexample :
    (PMS.datastore_load PMS.sample_store none).1 = true ∧
    (PMS.datastore_load PMS.sample_store none).2.category_count = 1 ∧
    (PMS.datastore_load PMS.sample_store none).2.category_count ≠ 0 := by
  decide

/-- C9 (amended): a failing `datastore_load` always frees the partially
constructed tree — the resulting store holds no categories — and a
successful load is consistent (`category_count` equals the number of
loaded categories); but a failure while reading or validating the header
leaves the partially-read header values in the store, so `category_count`
is not always reset to 0. -/
theorem C9_load_failure (s : PMS.DataStore) (st : List PMS.FVal) :
    ((PMS.datastore_load_stream s st).1 = false →
      (PMS.datastore_load_stream s st).2.categories = []) ∧
    ((PMS.datastore_load_stream s st).1 = true →
      (PMS.datastore_load_stream s st).2.category_count =
        ((PMS.datastore_load_stream s st).2.categories.length : Int)) := by
  unfold PMS.datastore_load_stream
  split
  · exact ⟨fun _ => rfl, fun h => by simp at h⟩
  next v1 st1 heq1 =>
    split
    · exact ⟨fun _ => rfl, fun h => by simp at h⟩
    next v2 st2 heq2 =>
      split
      · exact ⟨fun _ => rfl, fun h => by simp at h⟩
      next v3 st3 heq3 =>
        split
        · exact ⟨fun _ => rfl, fun h => by simp at h⟩
        next v4 st4 heq4 =>
          split
          · exact ⟨fun _ => rfl, fun h => by simp at h⟩
          next hval =>
            split
            · exact ⟨fun _ => rfl, fun h => by simp at h⟩
            next cats rest heq =>
              refine ⟨fun h => by simp at h, fun _ => ?_⟩
              have hlen := PMS.read_categories_length heq
              show v1 = (cats.length : Int)
              push_neg at hval
              omega

/-- Witness for C9 (amended): a body failure (subgroup count out of
bounds) leaves no categories in the store, and a successful load of an
empty file is consistent. -/
theorem C9_load_failure_witness :
    (PMS.datastore_load_stream PMS.datastore_init
        [PMS.FVal.ival 1, PMS.FVal.ival 1, PMS.FVal.ival 1,
         PMS.FVal.ival 1]).1 = false ∧
    (PMS.datastore_load_stream PMS.datastore_init
        [PMS.FVal.ival 1, PMS.FVal.ival 1, PMS.FVal.ival 1,
         PMS.FVal.ival 1]).2.categories = [] ∧
    (PMS.datastore_load_stream PMS.datastore_init
        [PMS.FVal.ival 0, PMS.FVal.ival 1, PMS.FVal.ival 1,
         PMS.FVal.ival 1]).1 = true ∧
    (PMS.datastore_load_stream PMS.datastore_init
        [PMS.FVal.ival 0, PMS.FVal.ival 1, PMS.FVal.ival 1,
         PMS.FVal.ival 1]).2.category_count =
      ((PMS.datastore_load_stream PMS.datastore_init
        [PMS.FVal.ival 0, PMS.FVal.ival 1, PMS.FVal.ival 1,
         PMS.FVal.ival 1]).2.categories.length : Int) :=
  ⟨by decide,
   (C9_load_failure PMS.datastore_init
       [PMS.FVal.ival 1, PMS.FVal.ival 1, PMS.FVal.ival 1,
        PMS.FVal.ival 1]).1 (by decide),
   by decide,
   (C9_load_failure PMS.datastore_init
       [PMS.FVal.ival 0, PMS.FVal.ival 1, PMS.FVal.ival 1,
        PMS.FVal.ival 1]).2 (by decide)⟩

/-- Counterexample to C9 as stated: a file whose header ends after two
ints (short read) makes the load fail, but the store is left with
`category_count = 3` taken from the file and no categories — not
empty-and-consistent. -/
theorem C9_counterexample :
    (PMS.datastore_load_stream PMS.datastore_init
        [PMS.FVal.ival 3, PMS.FVal.ival 1]).1 = false ∧
    (PMS.datastore_load_stream PMS.datastore_init
        [PMS.FVal.ival 3, PMS.FVal.ival 1]).2.category_count = 3 ∧
    (PMS.datastore_load_stream PMS.datastore_init
        [PMS.FVal.ival 3, PMS.FVal.ival 1]).2.categories = [] := by
  decide

/-- C10: Search correctness and result shape — the empty query matches
every product in the store; a price search with `min > max` returns the
empty result and never a false positive (every returned product lies in
the inclusive range); and for both searches the returned `count` equals
the length of the returned product-copy array exactly. -/
theorem C10_search :
    (∀ s : PMS.DataStore,
      (PMS.datastore_search_products_by_name s []).products =
        PMS.all_products s ∧
      (PMS.datastore_search_products_by_name s []).count =
        ((PMS.all_products s).length : Int)) ∧
    (∀ (s : PMS.DataStore) (lo hi : ℚ), hi < lo →
      PMS.datastore_search_products_by_price s lo hi =
        { products := [], count := 0 }) ∧
    (∀ (s : PMS.DataStore) (lo hi : ℚ),
      ∀ q ∈ (PMS.datastore_search_products_by_price s lo hi).products,
        lo ≤ q.price ∧ q.price ≤ hi) ∧
    (∀ (s : PMS.DataStore) (nm : List Char),
      (PMS.datastore_search_products_by_name s nm).count =
        ((PMS.datastore_search_products_by_name s nm).products.length :
          Int)) ∧
    (∀ (s : PMS.DataStore) (lo hi : ℚ),
      (PMS.datastore_search_products_by_price s lo hi).count =
        ((PMS.datastore_search_products_by_price s lo hi).products.length :
          Int)) := by
  refine ⟨?_, ?_, ?_, fun s nm => rfl, fun s lo hi => rfl⟩
  · intro s
    have hall : (PMS.all_products s).filter
        (fun p => PMS.strstr_hit ((p.name.take 99).map PMS.c_tolower)
          ((([] : List Char).take 99).map PMS.c_tolower)) =
        PMS.all_products s := by
      rw [List.filter_eq_self]
      intro p _
      exact PMS.strstr_hit_nil _
    simp only [PMS.datastore_search_products_by_name]
    rw [hall]
    exact ⟨rfl, rfl⟩
  · intro s lo hi hlt
    have hnil : (PMS.all_products s).filter
        (fun p => decide (lo ≤ p.price) && decide (p.price ≤ hi)) = [] := by
      rw [List.filter_eq_nil_iff]
      intro p _
      simp only [Bool.and_eq_true, decide_eq_true_eq, not_and]
      intro h1 h2
      exact absurd (le_trans h1 h2) (not_le.mpr hlt)
    simp only [PMS.datastore_search_products_by_price]
    rw [hnil]
    rfl
  · intro s lo hi q hq
    simp only [PMS.datastore_search_products_by_price] at hq
    have := List.of_mem_filter hq
    simpa using this

/-- Witness for C10 at a concrete one-product store with an inverted
price range. -/
theorem C10_search_witness :
    (1 : ℚ) > 0 ∧
    PMS.datastore_search_products_by_price PMS.sample_store 1 0 =
      { products := [], count := 0 } ∧
    (PMS.datastore_search_products_by_name PMS.sample_store []).products =
      PMS.all_products PMS.sample_store ∧
    (PMS.all_products PMS.sample_store).length = 2 :=
  ⟨by norm_num,
   C10_search.2.1 PMS.sample_store 1 0 (by norm_num),
   (C10_search.1 PMS.sample_store).1,
   by decide⟩
